import Mathlib

/-
Verification of the LinkedIn session-collector service.

The development shallowly embeds the Python sources:
  linkedin_session.py   (_sanitize_error_response, send_to_bubble, check_browserbase_api)
  session_manager.py    (InMemorySessionManager, RedisSessionManager)
  session_processor.py  (SessionProcessor.__aenter__ / __aexit__)
  app.py                (start_session_endpoint, health_check_endpoint)

Conventions:
  - Python dicts and Redis keyspaces are association lists keyed by String.
  - The json module is modelled by an executable JSON value type with a
    printer matching json.dumps default separators and a fuel-based
    recursive-descent parser for json.loads.  Numbers are modelled as
    integers; float literals are outside the model.
  - Exceptions are modelled with Except / explicit error constructors.
  - The tenacity retry decorator is modelled with its documented library
    semantics: the default retry predicate retries on every Exception
    (no retry= argument is passed in the source), and retry_error_callback
    makes the wrapped call return the callback's result instead of raising
    once the stop condition is reached.
-/

-- ===================================================================
-- JSON values (model of Python json module data)
-- ===================================================================

mutual
inductive Json : Type where
  | null : Json
  | bool : Bool → Json
  | num : Int → Json
  | str : String → Json
  | arr : JsonList → Json
  | obj : JsonObj → Json
inductive JsonList : Type where
  | nil : JsonList
  | cons : Json → JsonList → JsonList
inductive JsonObj : Type where
  | nil : JsonObj
  | cons : String → Json → JsonObj → JsonObj
end

deriving instance DecidableEq for Json, JsonList, JsonObj

-- ===================================================================
-- character helpers
-- ===================================================================

/-- Whitespace characters accepted between JSON tokens. -/
def isWs (c : Char) : Bool :=
  c = ' ' || c = '\t' || c = '\n' || c = '\r'

/-- Decimal digit test. -/
def isDig (c : Char) : Bool :=
  c = '0' || c = '1' || c = '2' || c = '3' || c = '4' ||
  c = '5' || c = '6' || c = '7' || c = '8' || c = '9'

/-- The character for a decimal digit value (argument taken mod its use site,
only ever applied to values below 10). -/
def digChar : Nat → Char
  | 0 => '0'
  | 1 => '1'
  | 2 => '2'
  | 3 => '3'
  | 4 => '4'
  | 5 => '5'
  | 6 => '6'
  | 7 => '7'
  | 8 => '8'
  | _+9 => '9'

/-- Numeric value of a digit character. -/
def digVal (c : Char) : Nat := c.toNat - 48

/-- Drop leading JSON whitespace. -/
def skipWs : List Char → List Char
  | [] => []
  | c :: cs => if isWs c then skipWs cs else c :: cs

/-- Escape a single character for a JSON string literal
(quote, backslash and the common control characters). -/
def escChar (c : Char) : List Char :=
  if c = '"' then ['\\', '"']
  else if c = '\\' then ['\\', '\\']
  else if c = '\n' then ['\\', 'n']
  else if c = '\t' then ['\\', 't']
  else if c = '\r' then ['\\', 'r']
  else [c]

/-- Escape a character list for a JSON string literal. -/
def escStr : List Char → List Char
  | [] => []
  | c :: cs => escChar c ++ escStr cs

/-- Interpret the character following a backslash in a JSON string literal. -/
def unesc (c : Char) : Char :=
  if c = 'n' then '\n'
  else if c = 't' then '\t'
  else if c = 'r' then '\r'
  else c

/-- Parse the body of a JSON string literal (the opening quote already
consumed); returns the decoded characters and the input after the
closing quote. -/
def parseStrBody : List Char → Option (List Char × List Char)
  | [] => none
  | c :: cs =>
    if c = '"' then some ([], cs)
    else if c = '\\' then
      match cs with
      | [] => none
      | e :: cs2 =>
        match parseStrBody cs2 with
        | none => none
        | some (s, r) => some (unesc e :: s, r)
    else
      match parseStrBody cs with
      | none => none
      | some (s, r) => some (c :: s, r)

/-- Split a leading run of decimal digits from the input. -/
def splitDigits : List Char → List Char × List Char
  | [] => ([], [])
  | c :: cs =>
    if isDig c then
      ((splitDigits cs).1.cons c, (splitDigits cs).2)
    else ([], c :: cs)

/-- Accumulate the numeric value of a digit run (most significant first). -/
def digsToNat (acc : Nat) : List Char → Nat
  | [] => acc
  | c :: cs => digsToNat (acc * 10 + digVal c) cs

/-- Decimal digits of a natural number, most significant first. -/
def natDigs (n : Nat) : List Char :=
  if n < 10 then [digChar n]
  else natDigs (n / 10) ++ [digChar (n % 10)]
decreasing_by exact Nat.div_lt_self (by omega) (by omega)

/-- Decimal representation of an integer. -/
def intChars (n : Int) : List Char :=
  if n < 0 then '-' :: natDigs n.natAbs else natDigs n.toNat

/-- Match an exact literal tail (used for null / true / false). -/
def expectLit (j : Json) : List Char → List Char → Option (Json × List Char)
  | cs, [] => some (j, cs)
  | [], _ :: _ => none
  | c :: cs, e :: es => if c = e then expectLit j cs es else none

-- ===================================================================
-- JSON printer (json.dumps with its default separators)
-- ===================================================================

mutual
def dumpV : Json → List Char
  | .num n => intChars n
  | .null => ['n', 'u', 'l', 'l']
  | .bool false => ['f', 'a', 'l', 's', 'e']
  | .bool true => ['t', 'r', 'u', 'e']
  | .str s => '"' :: (escStr s.data ++ ['"'])
  | .arr .nil => ['[', ']']
  | .arr (.cons v tl) => '[' :: ((dumpV v ++ dumpLRest tl) ++ [']'])
  | .obj .nil => ['\x7b', '\x7d']
  | .obj (.cons k v tl) =>
      '\x7b' :: ((('"' :: (escStr k.data ++ '"' :: ':' :: ' ' :: dumpV v)) ++ dumpORest tl) ++ ['\x7d'])
def dumpLRest : JsonList → List Char
  | .nil => []
  | .cons v tl => ',' :: ' ' :: (dumpV v ++ dumpLRest tl)
def dumpORest : JsonObj → List Char
  | .nil => []
  | .cons k v tl =>
      ',' :: ' ' :: (('"' :: (escStr k.data ++ '"' :: ':' :: ' ' :: dumpV v)) ++ dumpORest tl)
end

/-- Printed form of one object member. -/
def memberDump (k : String) (v : Json) : List Char :=
  '"' :: (escStr k.data ++ '"' :: ':' :: ' ' :: dumpV v)

/-- Printed form of the inside of an array. -/
def arrBody : JsonList → List Char
  | .nil => []
  | .cons v tl => dumpV v ++ dumpLRest tl

/-- Printed form of the inside of an object. -/
def objBody : JsonObj → List Char
  | .nil => []
  | .cons k v tl => memberDump k v ++ dumpORest tl

/-- Model of json.dumps. -/
def dumpsStr (v : Json) : String := String.mk (dumpV v)

-- ===================================================================
-- JSON parser (json.loads), fuel-based recursive descent
-- ===================================================================

mutual
def parseVal : Nat → List Char → Option (Json × List Char)
  | 0, _ => none
  | f+1, s => parseValCore f (skipWs s)
def parseValCore : Nat → List Char → Option (Json × List Char)
  | 0, _ => none
  | _+1, [] => none
  | f+1, c :: cs =>
    if c = '\x7b' then parseObjOpen f (skipWs cs)
    else if c = '[' then parseArrOpen f (skipWs cs)
    else if c = '"' then
      match parseStrBody cs with
      | none => none
      | some (k, r) => some (.str (String.mk k), r)
    else if c = '-' then
      match splitDigits cs with
      | ([], _) => none
      | (ds, r) => some (.num (-(digsToNat 0 ds : Int)), r)
    else if isDig c then
      some (.num ((digsToNat 0 (splitDigits (c :: cs)).1 : Nat) : Int), (splitDigits (c :: cs)).2)
    else if c = 'n' then expectLit .null cs ['u', 'l', 'l']
    else if c = 't' then expectLit (.bool true) cs ['r', 'u', 'e']
    else if c = 'f' then expectLit (.bool false) cs ['a', 'l', 's', 'e']
    else none
def parseObjOpen : Nat → List Char → Option (Json × List Char)
  | 0, _ => none
  | _+1, [] => none
  | f+1, c :: cs =>
    if c = '\x7d' then some (.obj .nil, cs)
    else if c = '"' then
      match parseMemberAt f cs with
      | none => none
      | some (kvs, r) => some (.obj kvs, r)
    else none
def parseArrOpen : Nat → List Char → Option (Json × List Char)
  | 0, _ => none
  | _+1, [] => none
  | f+1, c :: cs =>
    if c = ']' then some (.arr .nil, cs)
    else
      match parseVal f (c :: cs) with
      | none => none
      | some (v, r1) =>
        match parseArrRest f r1 with
        | none => none
        | some (tl, r2) => some (.arr (.cons v tl), r2)
def parseMemberAt : Nat → List Char → Option (JsonObj × List Char)
  | 0, _ => none
  | f+1, cs =>
    match parseStrBody cs with
    | none => none
    | some (k, r1) => parseMemberColon f (String.mk k) (skipWs r1)
def parseMemberColon : Nat → String → List Char → Option (JsonObj × List Char)
  | 0, _, _ => none
  | _+1, _, [] => none
  | f+1, k, c :: r2 =>
    if c = ':' then
      match parseVal f r2 with
      | none => none
      | some (v, r3) =>
        match parseObjRest f r3 with
        | none => none
        | some (tl, r4) => some (.cons k v tl, r4)
    else none
def parseArrRest : Nat → List Char → Option (JsonList × List Char)
  | 0, _ => none
  | f+1, s => parseArrRestCore f (skipWs s)
def parseArrRestCore : Nat → List Char → Option (JsonList × List Char)
  | 0, _ => none
  | _+1, [] => none
  | f+1, c :: cs =>
    if c = ']' then some (.nil, cs)
    else if c = ',' then
      match parseVal f cs with
      | none => none
      | some (v, r1) =>
        match parseArrRest f r1 with
        | none => none
        | some (tl, r2) => some (.cons v tl, r2)
    else none
def parseObjRest : Nat → List Char → Option (JsonObj × List Char)
  | 0, _ => none
  | f+1, s => parseObjRestCore f (skipWs s)
def parseObjRestCore : Nat → List Char → Option (JsonObj × List Char)
  | 0, _ => none
  | _+1, [] => none
  | f+1, c :: cs =>
    if c = '\x7d' then some (.nil, cs)
    else if c = ',' then parseMemberAfterComma f (skipWs cs)
    else none
def parseMemberAfterComma : Nat → List Char → Option (JsonObj × List Char)
  | 0, _ => none
  | _+1, [] => none
  | f+1, c :: cs =>
    if c = '"' then parseMemberAt f cs
    else none
end

/-- Model of json.loads: parse one value and require only whitespace after
it.  The fuel is generous for the input length; the roundtrip theorem shows
it always suffices for printed values. -/
def parseJson (s : String) : Option Json :=
  match parseVal (9 * s.data.length + 9) s.data with
  | some (v, r) =>
    match skipWs r with
    | [] => some v
    | _ :: _ => none
  | none => none

-- ===================================================================
-- redaction (_sanitize_error_response in linkedin_session.py)
-- ===================================================================

/-- Does the object have the given key. -/
def objHasKey : JsonObj → String → Bool
  | .nil, _ => false
  | .cons k _ t, key => k = key || objHasKey t key

/-- First value stored under the given key. -/
def objGet : JsonObj → String → Option Json
  | .nil, _ => none
  | .cons k v t, key => if k = key then some v else objGet t key

/-- Replace the value stored under the given key (Python dict assignment on
a present key; dict keys are unique, the map form keeps the model total). -/
def objSet : JsonObj → String → Json → JsonObj
  | .nil, _, _ => .nil
  | .cons k v t, key, nv => .cons k (if k = key then nv else v) (objSet t key nv)

/-- The two in-place updates performed on a parsed dict: redact a top-level
li_at entry, then redact li_at inside a dict stored under
offending_payload. -/
def redactObj (kvs : JsonObj) : JsonObj :=
  let kvs1 := if objHasKey kvs "li_at" then objSet kvs "li_at" (.str "[REDACTED]") else kvs
  match objGet kvs1 "offending_payload" with
  | some (.obj inner) =>
    if objHasKey inner "li_at" then
      objSet kvs1 "offending_payload" (.obj (objSet inner "li_at" (.str "[REDACTED]")))
    else kvs1
  | _ => kvs1

/-- Redaction on an arbitrary JSON value: only dicts are touched. -/
def redact : Json → Json
  | .obj kvs => .obj (redactObj kvs)
  | j => j

/-- Model of _sanitize_error_response: parse the text as JSON, redact the
sensitive field, and re-serialize; if parsing fails the text is returned
verbatim. -/
def sanitizeErrorResponse (response_text : String) : String :=
  match parseJson response_text with
  | some data => dumpsStr (redact data)
  | none => response_text

-- ===================================================================
-- association lists (Python dict / Redis keyspace)
-- ===================================================================

/-- Lookup in an association list (first match). -/
def alistGet {α : Type} : List (String × α) → String → Option α
  | [], _ => none
  | (k, v) :: t, key => if k = key then some v else alistGet t key

/-- Insert or overwrite a binding (value replaced in place when the key is
present, appended otherwise — Python dict / Redis SET semantics). -/
def alistSet {α : Type} : List (String × α) → String → α → List (String × α)
  | [], key, nv => [(key, nv)]
  | (k, v) :: t, key, nv =>
    if k = key then (k, nv) :: t else (k, v) :: alistSet t key nv

/-- Remove the binding for a key (first occurrence). -/
def alistRemove {α : Type} : List (String × α) → String → List (String × α)
  | [], _ => []
  | (k, v) :: t, key => if k = key then t else (k, v) :: alistRemove t key

/-- dict.pop(key, None): the removed value together with the remaining map. -/
def alistPop {α : Type} (l : List (String × α)) (key : String) :
    Option α × List (String × α) :=
  (alistGet l key, alistRemove l key)

-- ===================================================================
-- session managers (session_manager.py)
-- ===================================================================

/-- Python-level errors surfaced by the store models. -/
inductive PyErr : Type where
  | attributeError
  | jsonDecodeError
deriving DecidableEq

/-- In-memory store state: the _sessions dict. -/
def PyDict : Type := List (String × Json)

/-- Redis keyspace state: string keys to string values (TTL not modelled;
all accesses in the verified properties happen inside the TTL window). -/
def RedisState : Type := List (String × String)

/-- InMemorySessionManager.store_session: plain dict assignment. -/
def InMemorySessionManager.store_session (st : PyDict) (session_id : String)
    (session_data : Json) : PyDict :=
  alistSet st session_id session_data

/-- InMemorySessionManager.get_session: the source reads
self._sessions.retrieve(session_id), and a Python dict has no attribute
named retrieve, so the call raises AttributeError before any lookup. -/
def InMemorySessionManager.get_session (_st : PyDict) (_session_id : String) :
    Except PyErr (Option Json) :=
  .error .attributeError

/-- InMemorySessionManager.claim_session: dict.pop(session_id, None); the
popped value is returned whether or not it was found (the branch on it only
logs). -/
def InMemorySessionManager.claim_session (st : PyDict) (session_id : String) :
    Option Json × PyDict :=
  alistPop st session_id

/-- InMemorySessionManager.check_connection. -/
def InMemorySessionManager.check_connection : Bool := true

/-- RedisSessionManager.store_session: SET key json.dumps(data) EX ttl. -/
def RedisSessionManager.store_session (st : RedisState) (session_id : String)
    (session_data : Json) : RedisState :=
  alistSet st session_id (dumpsStr session_data)

/-- RedisSessionManager.get_session: GET then a truthiness test (None and
the empty string both take the not-found branch), then json.loads, whose
failure propagates as an error. -/
def RedisSessionManager.get_session (st : RedisState) (session_id : String) :
    Except PyErr (Option Json) :=
  match alistGet st session_id with
  | none => .ok none
  | some s =>
    if s.isEmpty then .ok none
    else
      match parseJson s with
      | some j => .ok (some j)
      | none => .error .jsonDecodeError

/-- RedisSessionManager.claim_session: GETDEL (atomic read-and-delete),
then the same truthiness test and json.loads as get_session. -/
def RedisSessionManager.claim_session (st : RedisState) (session_id : String) :
    Except PyErr (Option Json) × RedisState :=
  match alistGet st session_id with
  | none => (.ok none, st)
  | some s =>
    (if s.isEmpty then .ok none
     else
       match parseJson s with
       | some j => .ok (some j)
       | none => .error .jsonDecodeError,
     alistRemove st session_id)

/-- RedisSessionManager.check_connection: PING, ConnectionError maps to
false. -/
def RedisSessionManager.check_connection (pingOk : Bool) : Bool := pingOk

-- ===================================================================
-- delivery client (send_to_bubble in linkedin_session.py)
-- ===================================================================

/-- Outcome of one HTTP POST to the Bubble workflow. -/
inductive HttpOutcome : Type where
  | ok
  | status (code : Nat) (body : String)
  | transportError
deriving DecidableEq

/-- Exceptions raised inside one attempt of the wrapped function. -/
inductive BubbleError : Type where
  | httpStatus (code : Nat) (body : String)
  | requestError
deriving DecidableEq

/-- One execution of the body of send_to_bubble: post, raise_for_status,
and the except clauses.  Returns the attempt outcome together with the
sanitized client-error log lines that attempt emitted. -/
def bubbleAttempt (resp : HttpOutcome) : Except BubbleError Unit × List String :=
  match resp with
  | .ok => (.ok (), [])
  | .status code body =>
    if code < 400 then (.ok (), [])
    else if code < 500 then
      -- client error: log with the sensitive field redacted, re-raise
      (.error (.httpStatus code body), [sanitizeErrorResponse body])
    else
      -- server error: warning log (not counted here), re-raise
      (.error (.httpStatus code body), [])
  | .transportError => (.error .requestError, [])

/-- Observable result of a send_to_bubble call. -/
structure SendResult : Type where
  attempts : Nat
  clientErrorLogs : List String
  terminalLog : Option (Nat × BubbleError)
  raised : Option BubbleError
deriving DecidableEq

/-- The tenacity retry loop around the body, recursing on the number of
attempts still allowed.  The decorator passes stop_after_attempt 3 and
retry_error_callback=_log_after_retry and no retry= predicate, so every
raised Exception is retried until the stop condition, after which the
callback logs the attempt count and last exception and its return value
None is returned to the caller instead of an exception. -/
def sendFrom (responses : Nat → HttpOutcome) : Nat → Nat → List String → SendResult
  | 0, n, logs =>
    -- never reached when started with a positive attempt budget
    { attempts := n, clientErrorLogs := logs, terminalLog := none, raised := none }
  | left+1, n, logs =>
    match bubbleAttempt (responses n) with
    | (.ok _, ls) =>
      { attempts := n, clientErrorLogs := logs ++ ls, terminalLog := none, raised := none }
    | (.error e, ls) =>
      match left with
      | 0 =>
        { attempts := n, clientErrorLogs := logs ++ ls,
          terminalLog := some (n, e), raised := none }
      | _+1 => sendFrom responses left (n + 1) (logs ++ ls)

/-- Model of send_to_bubble: up to 3 attempts, numbered from 1. -/
def send_to_bubble (responses : Nat → HttpOutcome) : SendResult :=
  sendFrom responses 3 1 []

-- ===================================================================
-- health endpoint (app.py) and gateway probe (linkedin_session.py)
-- ===================================================================

/-- check_browserbase_api: sessions.list() succeeds or a BrowserbaseError
is swallowed into false. -/
def check_browserbase_api (listOk : Bool) : Bool := listOk

/-- A Python value as seen by a truthiness test. -/
inductive PyVal : Type where
  | bool (b : Bool)
  | coroutine
deriving DecidableEq

/-- Python truthiness: a coroutine object is always truthy. -/
def PyVal.truthy : PyVal → Bool
  | .bool b => b
  | .coroutine => true

/-- Shape of the health endpoint response. -/
structure HealthResponse : Type where
  ok : Bool
  redisReported : String
  browserbaseReported : String
deriving DecidableEq

/-- health_check_endpoint: session_manager.check_connection() is called and
awaited values are booleans, but check_browserbase_api(settings) is an
async function invoked without await, so the bound value is the coroutine
object itself — always truthy — and gatewayListOk is never consulted. -/
def health_check_endpoint (storePing : Bool) (gatewayListOk : Bool) : HealthResponse :=
  let redis_healthy : PyVal := .bool (RedisSessionManager.check_connection storePing)
  let browserbase_healthy : PyVal := .coroutine
  let _unused := check_browserbase_api gatewayListOk
  if redis_healthy.truthy && browserbase_healthy.truthy then
    { ok := true, redisReported := "healthy", browserbaseReported := "healthy" }
  else
    { ok := false,
      redisReported := if redis_healthy.truthy then "healthy" else "unhealthy",
      browserbaseReported := if browserbase_healthy.truthy then "healthy" else "unhealthy" }

-- ===================================================================
-- session processor (session_processor.py)
-- ===================================================================

/-- Python truthiness of a JSON value (used for `if not self.session_details`). -/
def jsonTruthy : Json → Bool
  | .null => false
  | .bool b => b
  | .num n => n != 0
  | .str s => !s.isEmpty
  | .arr .nil => false
  | .arr (.cons _ _) => true
  | .obj .nil => false
  | .obj (.cons _ _ _) => true

/-- Errors raised out of the processor. -/
inductive ProcError : Type where
  | sessionNotFound
  | browserbaseError
  | cdpError
  | indexError
deriving DecidableEq

/-- Environment of one finalize call: whether the gateway resolves a
connect URL, whether the CDP connection opens, and the contexts (each a
list of page handles) of the remote browser. -/
structure ProcEnv : Type where
  connectUrlOk : Bool
  cdpConnectOk : Bool
  contexts : List (List Nat)

/-- State threaded through the processor: the in-memory store, the
processor's own attributes, and a ledger of the two local handles plus a
count of pages ever created. -/
structure ProcState : Type where
  sessions : PyDict
  session_details : Option Json
  browser : Option (List (List Nat))
  playwrightSet : Bool
  pwHandleOpen : Bool
  browserConnOpen : Bool
  pagesCreated : Nat

/-- SessionProcessor.__aexit__: the browser branch only logs (the close
call is commented out in the source), the playwright handle is exited when
the attribute was set, and the stored session details are only logged. -/
def SessionProcessor.aexit (st : ProcState) : ProcState :=
  if st.playwrightSet then { st with pwHandleOpen := false } else st

/-- SessionProcessor.__aenter__: claim the session, resolve the connect
URL, start playwright, connect over CDP and return
self.browser.contexts[0].pages[0].  Any exception is logged, __aexit__ is
awaited, and the exception re-raised; no page is ever created. -/
def SessionProcessor.aenter (env : ProcEnv) (session_id : String) (st : ProcState) :
    Except ProcError Nat × ProcState :=
  let (claimed, sess1) := InMemorySessionManager.claim_session st.sessions session_id
  let st := { st with sessions := sess1, session_details := claimed }
  match claimed with
  | none => (.error .sessionNotFound, SessionProcessor.aexit st)
  | some details =>
    if !jsonTruthy details then (.error .sessionNotFound, SessionProcessor.aexit st)
    else if !env.connectUrlOk then (.error .browserbaseError, SessionProcessor.aexit st)
    else
      let st := { st with playwrightSet := true, pwHandleOpen := true }
      if !env.cdpConnectOk then (.error .cdpError, SessionProcessor.aexit st)
      else
        let st := { st with browser := some env.contexts, browserConnOpen := true }
        match env.contexts with
        | [] => (.error .indexError, SessionProcessor.aexit st)
        | ctx0 :: _ =>
          match ctx0 with
          | [] => (.error .indexError, SessionProcessor.aexit st)
          | page0 :: _ => (.ok page0, st)

/-- One whole pass through the async context manager: on successful entry
the caller's body runs (it does not touch the store or the handles) and
__aexit__ runs; on failed entry __aexit__ has already run inside
__aenter__. -/
def SessionProcessor.run (env : ProcEnv) (session_id : String) (st : ProcState) :
    Except ProcError Nat × ProcState :=
  match SessionProcessor.aenter env session_id st with
  | (.ok p, st1) => (.ok p, SessionProcessor.aexit st1)
  | (.error e, st1) => (.error e, st1)

-- ===================================================================
-- start endpoint (app.py)
-- ===================================================================

/-- Environment of one start-session call. -/
structure StartEnv : Type where
  createOk : Bool
  providerSessionId : String
  debuggerUrl : String
  newUuid : String
  innerOk : Bool

/-- Response of the start endpoint. -/
inductive StartResult : Type where
  | ok (session_id : String) (debugger_url : String)
  | http503
deriving DecidableEq

/-- The record built by create_new_session. -/
def sessionDetailsOf (env : StartEnv) : Json :=
  .obj (.cons "browserbase_session_id" (.str env.providerSessionId)
    (.cons "debugger_url" (.str env.debuggerUrl) .nil))

/-- start_session_endpoint over the in-memory store: create the remote
session, store the record under a fresh internal id, then try to open the
LinkedIn login page; that whole inner block is wrapped in
try/except Exception which only logs, so its failure does not affect the
store or the response. -/
def start_session_endpoint (env : StartEnv) (sessions : PyDict) :
    StartResult × PyDict :=
  if !env.createOk then (.http503, sessions)
  else
    let details := sessionDetailsOf env
    let sessions1 := InMemorySessionManager.store_session sessions env.newUuid details
    -- inner page-opening block: swallowed on failure, no store interaction
    let _innerFailed := !env.innerOk
    (.ok env.newUuid env.debuggerUrl, sessions1)

-- ===================================================================
-- concrete values used by witnesses and counterexamples
-- ===================================================================

/-- A concrete session record, as stored by the start endpoint. -/
def recExample : Json :=
  .obj (.cons "browserbase_session_id" (.str "bb-123")
    (.cons "debugger_url" (.str "https://debug.example") .nil))

/-- A processor state holding one stored session and no open handles. -/
def procStExample : ProcState :=
  { sessions := [("sid-1", recExample)]
    session_details := none
    browser := none
    playwrightSet := false
    pwHandleOpen := false
    browserConnOpen := false
    pagesCreated := 0 }

/-- An environment where everything succeeds and the default context has
one page. -/
def procEnvHappy : ProcEnv :=
  { connectUrlOk := true, cdpConnectOk := true, contexts := [[7]] }

/-- An environment where everything succeeds but the default context has
no page. -/
def procEnvNoPages : ProcEnv :=
  { connectUrlOk := true, cdpConnectOk := true, contexts := [[]] }

-- ===================================================================
-- helper lemmas: characters and whitespace
-- ===================================================================

theorem skipWs_cons_of_not_ws {c : Char} (h : isWs c = false) (l : List Char) :
    skipWs (c :: l) = c :: l := by
  simp [skipWs, h]

theorem isDig_cases {c : Char} (h : isDig c = true) :
    c = '0' ∨ c = '1' ∨ c = '2' ∨ c = '3' ∨ c = '4' ∨
    c = '5' ∨ c = '6' ∨ c = '7' ∨ c = '8' ∨ c = '9' := by
  simp [isDig] at h
  tauto

theorem digChar_isDig (r : Nat) : isDig (digChar r) = true := by
  rcases r with _ | _ | _ | _ | _ | _ | _ | _ | _ | r <;> rfl

theorem digVal_digChar {r : Nat} (h : r < 10) : digVal (digChar r) = r := by
  rcases r with _ | _ | _ | _ | _ | _ | _ | _ | _ | _ | r <;> first | rfl | omega

theorem isDig_facts {c : Char} (h : isDig c = true) :
    isWs c = false ∧ c ≠ '\x7b' ∧ c ≠ '[' ∧ c ≠ '"' ∧ c ≠ '-' ∧
    c ≠ ']' ∧ c ≠ ',' ∧ c ≠ '\x7d' := by
  rcases isDig_cases h with rfl | rfl | rfl | rfl | rfl | rfl | rfl | rfl | rfl | rfl <;> decide

-- ===================================================================
-- helper lemmas: decimal digits
-- ===================================================================

theorem natDigs_lt (n : Nat) (h : n < 10) : natDigs n = [digChar n] := by
  rw [natDigs]
  simp [h]

theorem natDigs_ge (n : Nat) (h : ¬ n < 10) :
    natDigs n = natDigs (n / 10) ++ [digChar (n % 10)] := by
  rw [natDigs]
  simp [h]

theorem natDigs_ne_nil (n : Nat) : natDigs n ≠ [] := by
  by_cases h : n < 10
  · rw [natDigs_lt n h]
    simp
  · rw [natDigs_ge n h]
    simp

theorem natDigs_all_digits (n : Nat) : ∀ c ∈ natDigs n, isDig c = true := by
  induction n using Nat.strong_induction_on with
  | _ n ih =>
    intro c hc
    by_cases h : n < 10
    · rw [natDigs_lt n h] at hc
      simp at hc
      subst hc
      exact digChar_isDig n
    · rw [natDigs_ge n h] at hc
      simp at hc
      rcases hc with hc | hc
      · exact ih (n / 10) (Nat.div_lt_self (by omega) (by omega)) c hc
      · subst hc
        exact digChar_isDig (n % 10)

theorem digsToNat_append (a b : List Char) (acc : Nat) :
    digsToNat acc (a ++ b) = digsToNat (digsToNat acc a) b := by
  induction a generalizing acc with
  | nil => rfl
  | cons c cs ih =>
    show digsToNat (acc * 10 + digVal c) (cs ++ b)
      = digsToNat (digsToNat (acc * 10 + digVal c) cs) b
    exact ih _

theorem digsToNat_natDigs (n : Nat) :
    ∀ acc, digsToNat acc (natDigs n) = acc * 10 ^ (natDigs n).length + n := by
  induction n using Nat.strong_induction_on with
  | _ n ih =>
    intro acc
    by_cases h : n < 10
    · rw [natDigs_lt n h]
      show acc * 10 + digVal (digChar n) = acc * 10 ^ [digChar n].length + n
      rw [digVal_digChar h]
      norm_num
    · rw [natDigs_ge n h, digsToNat_append,
        ih (n / 10) (Nat.div_lt_self (by omega) (by omega))]
      have hm : n % 10 < 10 := Nat.mod_lt n (by omega)
      show (acc * 10 ^ (natDigs (n / 10)).length + n / 10) * 10 + digVal (digChar (n % 10))
        = acc * 10 ^ (natDigs (n / 10) ++ [digChar (n % 10)]).length + n
      rw [digVal_digChar hm, List.length_append]
      simp only [List.length_singleton, pow_succ]
      generalize (10 : Nat) ^ (natDigs (n / 10)).length = X
      ring_nf
      omega

theorem digsToNat_natDigs_zero (n : Nat) : digsToNat 0 (natDigs n) = n := by
  rw [digsToNat_natDigs]
  simp

/-- Lists that do not begin with a digit (valid continuations after a
printed number). -/
def notDigitStart : List Char → Prop
  | [] => True
  | c :: _ => isDig c = false

theorem splitDigits_all (ds rest : List Char)
    (h : ∀ c ∈ ds, isDig c = true) (h2 : notDigitStart rest) :
    splitDigits (ds ++ rest) = (ds, rest) := by
  induction ds with
  | nil =>
    cases rest with
    | nil => rfl
    | cons c t =>
      simp [notDigitStart] at h2
      simp [splitDigits, h2]
  | cons d ds ih =>
    have hd : isDig d = true := h d (by simp)
    have ih2 := ih (fun c hc => h c (by simp [hc]))
    simp [splitDigits, hd, ih2]

-- ===================================================================
-- helper lemmas: string literal roundtrip
-- ===================================================================

theorem parseStrBody_roundtrip (cs rest : List Char) :
    parseStrBody (escStr cs ++ '"' :: rest) = some (cs, rest) := by
  induction cs with
  | nil =>
    rw [escStr, List.nil_append, parseStrBody.eq_def]
    simp
  | cons c cs ih =>
    by_cases h1 : c = '"'
    · subst h1
      rw [escStr]
      rw [show escChar '"' = ['\\', '"'] from rfl]
      rw [List.cons_append, List.cons_append, parseStrBody.eq_def]
      simp [unesc, ih]
    · by_cases h2 : c = '\\'
      · subst h2
        rw [escStr]
        rw [show escChar '\\' = ['\\', '\\'] from rfl]
        rw [List.cons_append, List.cons_append, parseStrBody.eq_def]
        simp [unesc, ih]
      · by_cases h3 : c = '\n'
        · subst h3
          rw [escStr]
          rw [show escChar '\n' = ['\\', 'n'] from rfl]
          rw [List.cons_append, List.cons_append, parseStrBody.eq_def]
          simp [unesc, ih]
        · by_cases h4 : c = '\t'
          · subst h4
            rw [escStr]
            rw [show escChar '\t' = ['\\', 't'] from rfl]
            rw [List.cons_append, List.cons_append, parseStrBody.eq_def]
            simp [unesc, ih]
          · by_cases h5 : c = '\r'
            · subst h5
              rw [escStr]
              rw [show escChar '\r' = ['\\', 'r'] from rfl]
              rw [List.cons_append, List.cons_append, parseStrBody.eq_def]
              simp [unesc, ih]
            · rw [escStr]
              rw [show escChar c = [c] from by simp [escChar, h1, h2, h3, h4, h5]]
              rw [List.cons_append, List.nil_append, parseStrBody.eq_def]
              simp [h1, h2, ih]

-- ===================================================================
-- helper lemmas: heads of printed values
-- ===================================================================

theorem dumpV_head (v : Json) :
    ∃ c t, dumpV v = c :: t ∧ isWs c = false ∧ c ≠ ']' := by
  cases v with
  | null => exact ⟨'n', _, rfl, by decide, by decide⟩
  | bool b =>
    cases b with
    | false => exact ⟨'f', _, rfl, by decide, by decide⟩
    | true => exact ⟨'t', _, rfl, by decide, by decide⟩
  | num n =>
    rw [show dumpV (.num n) = intChars n from rfl, intChars]
    by_cases h : n < 0
    · rw [if_pos h]
      exact ⟨'-', natDigs n.natAbs, rfl, by decide, by decide⟩
    · rw [if_neg h]
      rcases hd : natDigs n.toNat with _ | ⟨c, t⟩
      · exact absurd hd (natDigs_ne_nil _)
      · have hc : isDig c = true :=
          natDigs_all_digits _ c (by rw [hd]; exact List.mem_cons_self c t)
        obtain ⟨hw, _, _, _, _, hrb, _, _⟩ := isDig_facts hc
        exact ⟨c, t, rfl, hw, hrb⟩
  | str s => exact ⟨'"', _, rfl, by decide, by decide⟩
  | arr xs =>
    cases xs with
    | nil => exact ⟨'[', _, rfl, by decide, by decide⟩
    | cons v tl => exact ⟨'[', _, rfl, by decide, by decide⟩
  | obj kvs =>
    cases kvs with
    | nil => exact ⟨'\x7b', _, rfl, by decide, by decide⟩
    | cons k v tl => exact ⟨'\x7b', _, rfl, by decide, by decide⟩

theorem skipWs_dumpV (v : Json) (r : List Char) :
    skipWs (dumpV v ++ r) = dumpV v ++ r := by
  obtain ⟨c, t, hv, hw, _⟩ := dumpV_head v
  rw [hv, List.cons_append, skipWs_cons_of_not_ws hw]

theorem notDigitStart_lrest (tl : JsonList) (rest : List Char) :
    notDigitStart (dumpLRest tl ++ ']' :: rest) := by
  cases tl <;> simp [dumpLRest, notDigitStart] <;> decide

theorem notDigitStart_orest (tl : JsonObj) (rest : List Char) :
    notDigitStart (dumpORest tl ++ '\x7d' :: rest) := by
  cases tl <;> simp [dumpORest, notDigitStart] <;> decide

theorem parseVal_ws (f : Nat) {c : Char} (h : isWs c = true) (X : List Char) :
    parseVal f (c :: X) = parseVal f X := by
  cases f with
  | zero => rfl
  | succ f => simp [parseVal, skipWs, h]

-- ===================================================================
-- the printer-parser roundtrip
-- ===================================================================

theorem stringMk_data (s : String) : String.mk s.data = s := rfl

theorem skipWs_space (X : List Char) : skipWs (' ' :: X) = skipWs X := by
  simp [skipWs, isWs]

set_option maxHeartbeats 1000000 in
theorem parse_dump_bundle : ∀ f : Nat,
    (∀ v rest, 8 * (dumpV v).length ≤ f → notDigitStart rest →
      parseVal f (dumpV v ++ rest) = some (v, rest))
  ∧ (∀ tl rest, 8 * (dumpLRest tl).length + 2 ≤ f →
      parseArrRest f (dumpLRest tl ++ ']' :: rest) = some (tl, rest))
  ∧ (∀ kvs rest, 8 * (dumpORest kvs).length + 2 ≤ f →
      parseObjRest f (dumpORest kvs ++ '\x7d' :: rest) = some (kvs, rest))
  ∧ (∀ (k : String) v kvs rest,
      8 * (dumpV v).length + 8 * (dumpORest kvs).length + 6 ≤ f →
      parseMemberAt f
        (escStr k.data ++ '"' :: ':' :: ' ' :: (dumpV v ++ (dumpORest kvs ++ '\x7d' :: rest)))
        = some (.cons k v kvs, rest)) := by
  intro f
  induction f using Nat.strong_induction_on with
  | _ f ih =>
    refine ⟨?_, ?_, ?_, ?_⟩
    -- Part A : parseVal
    · intro v rest hf hrest
      have hlen1 : 1 ≤ (dumpV v).length := by
        obtain ⟨c, t, hv, _, _⟩ := dumpV_head v
        rw [hv]
        simp
      obtain ⟨f1, rfl⟩ : ∃ f1, f = f1 + 1 := ⟨f - 1, by omega⟩
      rw [show parseVal (f1 + 1) (dumpV v ++ rest) = parseValCore f1 (skipWs (dumpV v ++ rest))
        from by simp [parseVal]]
      rw [skipWs_dumpV]
      obtain ⟨f2, rfl⟩ : ∃ f2, f1 = f2 + 1 := ⟨f1 - 1, by omega⟩
      cases v with
      | null => simp [dumpV, parseValCore, expectLit, isDig]
      | bool b => cases b with
        | true => simp [dumpV, parseValCore, expectLit, isDig]
        | false => simp [dumpV, parseValCore, expectLit, isDig]
      | str s =>
        simp only [dumpV, List.cons_append, List.append_assoc, List.singleton_append]
        simp only [parseValCore]
        rw [parseStrBody_roundtrip]
        simp [stringMk_data]
      | num n =>
        rcases n with m | m
        · -- nonnegative
          rw [show dumpV (.num (Int.ofNat m)) = natDigs m from by
            simp [dumpV, intChars, Int.toNat_ofNat]]
          rcases hnd : natDigs m with _ | ⟨c, t⟩
          · exact absurd hnd (natDigs_ne_nil m)
          · have hc : isDig c = true :=
              natDigs_all_digits m c (by rw [hnd]; exact List.mem_cons_self c t)
            obtain ⟨hw, hbrace, hbrk, hquot, hminus, _, _, _⟩ := isDig_facts hc
            rw [List.cons_append]
            simp only [parseValCore]
            rw [if_neg hbrace, if_neg hbrk, if_neg hquot, if_neg hminus, if_pos hc]
            rw [← List.cons_append, ← hnd,
              splitDigits_all (natDigs m) rest (natDigs_all_digits m) hrest]
            simp [digsToNat_natDigs_zero]
        · -- negative: Int.negSucc m prints as minus and digits of m+1
          rw [show dumpV (.num (Int.negSucc m)) = '-' :: natDigs (m + 1) from by
            simp [dumpV, intChars, Int.negSucc_lt_zero]]
          rw [List.cons_append]
          simp only [parseValCore]
          rw [if_neg (by decide : ¬ ('-' : Char) = '\x7b'),
            if_neg (by decide : ¬ ('-' : Char) = '['),
            if_neg (by decide : ¬ ('-' : Char) = '"')]
          simp only [if_true]
          rw [splitDigits_all (natDigs (m + 1)) rest (natDigs_all_digits (m + 1)) hrest]
          rcases hnd : natDigs (m + 1) with _ | ⟨c, t⟩
          · exact absurd hnd (natDigs_ne_nil (m + 1))
          · simp only [← hnd, digsToNat_natDigs_zero]
            simp [Int.negSucc_eq]
      | arr xs =>
        cases xs with
        | nil =>
          rw [show dumpV (.arr .nil) ++ rest = '[' :: ']' :: rest from by simp [dumpV]]
          simp only [parseValCore]
          rw [if_neg (by decide : ¬ ('[' : Char) = '\x7b')]
          simp only [if_true]
          rw [skipWs_cons_of_not_ws (by decide)]
          simp only [dumpV, List.length_cons] at hf
          obtain ⟨f3, rfl⟩ : ∃ f3, f2 = f3 + 1 := ⟨f2 - 1, by omega⟩
          simp [parseArrOpen]
        | cons v1 tl =>
          rw [show dumpV (.arr (.cons v1 tl)) ++ rest
              = '[' :: (dumpV v1 ++ (dumpLRest tl ++ ']' :: rest)) from by simp [dumpV]]
          simp only [parseValCore]
          rw [if_neg (by decide : ¬ ('[' : Char) = '\x7b')]
          simp only [if_true]
          rw [skipWs_dumpV]
          simp only [dumpV, List.length_cons, List.length_append,
            List.length_singleton] at hf
          obtain ⟨f3, rfl⟩ : ∃ f3, f2 = f3 + 1 := ⟨f2 - 1, by omega⟩
          obtain ⟨c, t, hv1, hw1, hne1⟩ := dumpV_head v1
          rw [hv1, List.cons_append]
          simp only [parseArrOpen]
          rw [if_neg hne1, ← List.cons_append, ← hv1]
          rw [(ih f3 (by omega)).1 v1 (dumpLRest tl ++ ']' :: rest)
            (by omega) (notDigitStart_lrest tl rest)]
          simp only []
          rw [(ih f3 (by omega)).2.1 tl rest (by omega)]
      | obj kvs =>
        cases kvs with
        | nil =>
          rw [show dumpV (.obj .nil) ++ rest = '\x7b' :: '\x7d' :: rest from by simp [dumpV]]
          simp only [parseValCore]
          simp only [if_true]
          rw [skipWs_cons_of_not_ws (by decide)]
          simp only [dumpV, List.length_cons] at hf
          obtain ⟨f3, rfl⟩ : ∃ f3, f2 = f3 + 1 := ⟨f2 - 1, by omega⟩
          simp [parseObjOpen]
        | cons k v1 tl =>
          rw [show dumpV (.obj (.cons k v1 tl)) ++ rest
              = '\x7b' :: ('"' :: (escStr k.data ++ '"' :: ':' :: ' ' ::
                  (dumpV v1 ++ (dumpORest tl ++ '\x7d' :: rest)))) from by simp [dumpV]]
          simp only [parseValCore]
          simp only [if_true]
          rw [skipWs_cons_of_not_ws (by decide)]
          simp only [dumpV, List.length_cons, List.length_append,
            List.length_singleton] at hf
          obtain ⟨f3, rfl⟩ : ∃ f3, f2 = f3 + 1 := ⟨f2 - 1, by omega⟩
          simp only [parseObjOpen]
          rw [if_neg (by decide : ¬ ('"' : Char) = '\x7d')]
          simp only [if_true]
          rw [(ih f3 (by omega)).2.2.2 k v1 tl rest (by omega)]
    -- Part B : parseArrRest
    · intro tl rest hf
      obtain ⟨f1, rfl⟩ : ∃ f1, f = f1 + 1 := ⟨f - 1, by omega⟩
      rw [show parseArrRest (f1 + 1) (dumpLRest tl ++ ']' :: rest)
          = parseArrRestCore f1 (skipWs (dumpLRest tl ++ ']' :: rest)) from by
        simp [parseArrRest]]
      cases tl with
      | nil =>
        rw [show dumpLRest .nil ++ ']' :: rest = ']' :: rest from by simp [dumpLRest]]
        rw [skipWs_cons_of_not_ws (by decide)]
        obtain ⟨f2, rfl⟩ : ∃ f2, f1 = f2 + 1 := ⟨f1 - 1, by omega⟩
        simp [parseArrRestCore]
      | cons v1 tl2 =>
        rw [show dumpLRest (.cons v1 tl2) ++ ']' :: rest
            = ',' :: ' ' :: (dumpV v1 ++ (dumpLRest tl2 ++ ']' :: rest)) from by
          simp [dumpLRest]]
        rw [skipWs_cons_of_not_ws (by decide)]
        simp only [dumpLRest, List.length_cons, List.length_append] at hf
        obtain ⟨f2, rfl⟩ : ∃ f2, f1 = f2 + 1 := ⟨f1 - 1, by omega⟩
        simp only [parseArrRestCore]
        rw [if_neg (by decide : ¬ (',' : Char) = ']')]
        simp only [if_true]
        rw [parseVal_ws f2 (by decide)]
        rw [(ih f2 (by omega)).1 v1 (dumpLRest tl2 ++ ']' :: rest)
          (by omega) (notDigitStart_lrest tl2 rest)]
        simp only []
        rw [(ih f2 (by omega)).2.1 tl2 rest (by omega)]
    -- Part C : parseObjRest
    · intro kvs rest hf
      obtain ⟨f1, rfl⟩ : ∃ f1, f = f1 + 1 := ⟨f - 1, by omega⟩
      rw [show parseObjRest (f1 + 1) (dumpORest kvs ++ '\x7d' :: rest)
          = parseObjRestCore f1 (skipWs (dumpORest kvs ++ '\x7d' :: rest)) from by
        simp [parseObjRest]]
      cases kvs with
      | nil =>
        rw [show dumpORest .nil ++ '\x7d' :: rest = '\x7d' :: rest from by simp [dumpORest]]
        rw [skipWs_cons_of_not_ws (by decide)]
        obtain ⟨f2, rfl⟩ : ∃ f2, f1 = f2 + 1 := ⟨f1 - 1, by omega⟩
        simp [parseObjRestCore]
      | cons k v1 tl2 =>
        rw [show dumpORest (.cons k v1 tl2) ++ '\x7d' :: rest
            = ',' :: ' ' :: ('"' :: (escStr k.data ++ '"' :: ':' :: ' ' ::
                (dumpV v1 ++ (dumpORest tl2 ++ '\x7d' :: rest)))) from by
          simp [dumpORest]]
        rw [skipWs_cons_of_not_ws (by decide)]
        simp only [dumpORest, List.length_cons, List.length_append,
          List.length_singleton] at hf
        obtain ⟨f2, rfl⟩ : ∃ f2, f1 = f2 + 1 := ⟨f1 - 1, by omega⟩
        simp only [parseObjRestCore]
        rw [if_neg (by decide : ¬ (',' : Char) = '\x7d')]
        simp only [if_true]
        rw [skipWs_space, skipWs_cons_of_not_ws (by decide)]
        obtain ⟨f3, rfl⟩ : ∃ f3, f2 = f3 + 1 := ⟨f2 - 1, by omega⟩
        simp only [parseMemberAfterComma]
        simp only [if_true]
        rw [(ih f3 (by omega)).2.2.2 k v1 tl2 rest (by omega)]
    -- Part D : parseMemberAt
    · intro k v1 tl rest hf
      obtain ⟨f1, rfl⟩ : ∃ f1, f = f1 + 1 := ⟨f - 1, by omega⟩
      simp only [parseMemberAt]
      rw [show escStr k.data ++ '"' :: ':' :: ' ' :: (dumpV v1 ++ (dumpORest tl ++ '\x7d' :: rest))
          = escStr k.data ++ '"' :: (':' :: ' ' :: (dumpV v1 ++ (dumpORest tl ++ '\x7d' :: rest)))
          from rfl]
      rw [parseStrBody_roundtrip]
      simp only []
      rw [skipWs_cons_of_not_ws (by decide)]
      obtain ⟨f2, rfl⟩ : ∃ f2, f1 = f2 + 1 := ⟨f1 - 1, by omega⟩
      simp only [parseMemberColon]
      simp only [if_true]
      rw [parseVal_ws f2 (by decide)]
      rw [(ih f2 (by omega)).1 v1 (dumpORest tl ++ '\x7d' :: rest)
        (by omega) (notDigitStart_orest tl rest)]
      simp only []
      rw [(ih f2 (by omega)).2.2.1 tl rest (by omega)]

theorem data_mk (l : List Char) : (String.mk l).data = l := rfl

/-- json.loads inverts json.dumps on every JSON value. -/
theorem parseJson_dumpsStr (v : Json) : parseJson (dumpsStr v) = some v := by
  have h := (parse_dump_bundle (9 * (dumpV v).length + 9)).1 v [] (by omega) trivial
  rw [List.append_nil] at h
  simp only [parseJson, dumpsStr, data_mk]
  rw [h]
  rfl

-- ===================================================================
-- redaction lemmas
-- ===================================================================

/-- Structural induction over the spine of a JSON object, leaving the
stored values opaque. -/
theorem jsonObjSpine (P : JsonObj → Prop) (nil : P .nil)
    (cons : ∀ k v t, P t → P (.cons k v t)) (t : JsonObj) : P t :=
  @JsonObj.rec (fun _ => True) (fun _ => True) P
    trivial (fun _ => trivial) (fun _ => trivial) (fun _ => trivial)
    (fun _ _ => trivial) (fun _ _ => trivial)
    trivial (fun _ _ _ _ => trivial)
    nil (fun k v tl _ ih => cons k v tl ih) t

theorem objHasKey_objSet (t : JsonObj) (k k2 : String) (v : Json) :
    objHasKey (objSet t k v) k2 = objHasKey t k2 := by
  induction t using jsonObjSpine with
  | nil => rfl
  | cons k3 v3 t ih =>
    by_cases h : k3 = k <;> simp [objSet, objHasKey, h, ih]

theorem objGet_objSet_self (t : JsonObj) (k : String) (v : Json) :
    objGet (objSet t k v) k = if objHasKey t k then some v else none := by
  induction t using jsonObjSpine with
  | nil => rfl
  | cons k3 v3 t ih =>
    by_cases h : k3 = k <;> simp [objSet, objGet, objHasKey, h, ih]

theorem objGet_objSet_other (t : JsonObj) (k k2 : String) (v : Json) (h : k ≠ k2) :
    objGet (objSet t k v) k2 = objGet t k2 := by
  induction t using jsonObjSpine with
  | nil => rfl
  | cons k3 v3 t ih =>
    by_cases h3 : k3 = k
    · subst h3
      simp [objSet, objGet, h, ih]
    · by_cases h4 : k3 = k2 <;> simp [objSet, objGet, h3, h4, ih, Ne.symm h]

theorem objSet_objSet_self (t : JsonObj) (k : String) (v v2 : Json) :
    objSet (objSet t k v) k v2 = objSet t k v2 := by
  induction t using jsonObjSpine with
  | nil => rfl
  | cons k3 v3 t ih =>
    by_cases h : k3 = k <;> simp [objSet, h, ih]

theorem objSet_comm (t : JsonObj) (k k2 : String) (v v2 : Json) (h : k ≠ k2) :
    objSet (objSet t k v) k2 v2 = objSet (objSet t k2 v2) k v := by
  induction t using jsonObjSpine with
  | nil =>
    simp [objSet, h, Ne.symm h]
  | cons k3 v3 t ih =>
    by_cases h3 : k3 = k
    · subst h3
      simp [objSet, h, ih]
    · by_cases h4 : k3 = k2 <;> simp [objSet, h3, h4, ih, Ne.symm h]

theorem objHasKey_of_objGet {t : JsonObj} {k : String} {v : Json}
    (h : objGet t k = some v) : objHasKey t k = true := by
  induction t using jsonObjSpine with
  | nil => simp [objGet] at h
  | cons k3 v3 t ih =>
    by_cases h3 : k3 = k
    · simp [objHasKey, h3]
    · simp [objGet, h3] at h
      simp [objHasKey, h3, ih h]

/-- First half of redactObj: redact a top-level li_at entry. -/
def redactStage1 (kvs : JsonObj) : JsonObj :=
  if objHasKey kvs "li_at" then objSet kvs "li_at" (.str "[REDACTED]") else kvs

/-- Second half of redactObj: redact li_at inside an offending_payload dict. -/
def redactStage2 (kvs1 : JsonObj) : JsonObj :=
  match objGet kvs1 "offending_payload" with
  | some (.obj inner) =>
    if objHasKey inner "li_at" then
      objSet kvs1 "offending_payload" (.obj (objSet inner "li_at" (.str "[REDACTED]")))
    else kvs1
  | _ => kvs1

theorem redactObj_stages (kvs : JsonObj) :
    redactObj kvs = redactStage2 (redactStage1 kvs) := rfl

/-- A key is li_at-fixed when redacting it again changes nothing. -/
def lFixed (t : JsonObj) : Prop :=
  objHasKey t "li_at" = true → objSet t "li_at" (.str "[REDACTED]") = t

theorem lFixed_stage1 (kvs : JsonObj) : lFixed (redactStage1 kvs) := by
  intro h
  rw [redactStage1] at h ⊢
  by_cases hA : objHasKey kvs "li_at" = true
  · simp only [hA, if_true]
    exact objSet_objSet_self kvs "li_at" _ _
  · have hF : objHasKey kvs "li_at" = false := by
      cases hhh : objHasKey kvs "li_at"
      · rfl
      · exact absurd hhh hA
    simp [hF] at h

theorem stage1_of_lFixed {t : JsonObj} (h : lFixed t) : redactStage1 t = t := by
  rw [redactStage1]
  by_cases hA : objHasKey t "li_at" = true
  · simp only [hA, if_true]
    exact h hA
  · have hF : objHasKey t "li_at" = false := by
      cases hhh : objHasKey t "li_at"
      · rfl
      · exact absurd hhh hA
    simp [hF]

theorem lFixed_stage2 {t : JsonObj} (h : lFixed t) : lFixed (redactStage2 t) := by
  rw [redactStage2.eq_def]
  rcases hO : objGet t "offending_payload" with _ | j
  · exact h
  · cases j with
    | obj inner =>
      by_cases hI : objHasKey inner "li_at" = true
      · simp only [hI, if_true]
        intro hk
        rw [objHasKey_objSet] at hk
        rw [objSet_comm t "offending_payload" "li_at" _ _ (by decide)]
        rw [h hk]
      · simp only [hI, if_false]
        exact h
    | null => exact h
    | bool b => exact h
    | num n => exact h
    | str s => exact h
    | arr xs => exact h

theorem stage2_unfold (t : JsonObj) :
    redactStage2 t = match objGet t "offending_payload" with
      | some (.obj inner) =>
        if objHasKey inner "li_at" then
          objSet t "offending_payload" (.obj (objSet inner "li_at" (.str "[REDACTED]")))
        else t
      | _ => t := rfl

theorem stage2_idem (t : JsonObj) : redactStage2 (redactStage2 t) = redactStage2 t := by
  rw [stage2_unfold t]
  rcases hO : objGet t "offending_payload" with _ | j
  · rw [stage2_unfold t, hO]
  · cases j with
    | obj inner =>
      by_cases hI : objHasKey inner "li_at" = true
      · simp only [hI, if_true]
        have hTO : objHasKey t "offending_payload" = true := objHasKey_of_objGet hO
        rw [stage2_unfold]
        rw [objGet_objSet_self t "offending_payload"
          (.obj (objSet inner "li_at" (.str "[REDACTED]")))]
        simp only [hTO, if_true]
        rw [objHasKey_objSet]
        simp only [hI, if_true]
        rw [objSet_objSet_self inner, objSet_objSet_self t]
      · have hF : objHasKey inner "li_at" = false := by
          cases hhh : objHasKey inner "li_at"
          · rfl
          · exact absurd hhh hI
        simp only [hF, Bool.false_eq_true, if_false]
        rw [stage2_unfold t, hO]
        simp only [hF, Bool.false_eq_true, if_false]
    | null => rw [stage2_unfold t, hO]
    | bool b => rw [stage2_unfold t, hO]
    | num n => rw [stage2_unfold t, hO]
    | str s => rw [stage2_unfold t, hO]
    | arr xs => rw [stage2_unfold t, hO]

theorem redactObj_idem (kvs : JsonObj) :
    redactObj (redactObj kvs) = redactObj kvs := by
  rw [redactObj_stages, redactObj_stages,
    stage1_of_lFixed (lFixed_stage2 (lFixed_stage1 kvs)), stage2_idem]

theorem redact_idem (j : Json) : redact (redact j) = redact j := by
  cases j with
  | obj kvs =>
    rw [show redact (.obj kvs) = .obj (redactObj kvs) from rfl,
      show redact (.obj (redactObj kvs)) = .obj (redactObj (redactObj kvs)) from rfl,
      redactObj_idem]
  | null => rfl
  | bool b => rfl
  | num n => rfl
  | str s => rfl
  | arr xs => rfl

-- ===================================================================
-- association list lemmas
-- ===================================================================

theorem alistGet_alistSet_self {α : Type} (l : List (String × α)) (k : String) (v : α) :
    alistGet (alistSet l k v) k = some v := by
  induction l with
  | nil => simp [alistSet, alistGet]
  | cons p t ih =>
    by_cases h : p.1 = k <;> simp [alistSet, alistGet, h, ih]

theorem alistRemove_alistSet {α : Type} (l : List (String × α)) (k : String) (v : α) :
    alistRemove (alistSet l k v) k = alistRemove l k := by
  induction l with
  | nil => simp [alistSet, alistRemove]
  | cons p t ih =>
    by_cases h : p.1 = k <;> simp [alistSet, alistRemove, h, ih]

theorem alistGet_eq_none_of_not_mem {α : Type} {l : List (String × α)} {k : String}
    (h : k ∉ l.map Prod.fst) : alistGet l k = none := by
  induction l with
  | nil => rfl
  | cons p t ih =>
    rw [List.map_cons] at h
    have h1 : ¬ k = p.1 := fun he => h (he ▸ List.mem_cons_self _ _)
    have h2 : k ∉ List.map Prod.fst t := fun hm => h (List.mem_cons_of_mem _ hm)
    have h3 : ¬ p.1 = k := fun he => h1 he.symm
    simp [alistGet, h3, ih h2]

theorem alistGet_alistRemove_self {α : Type} {l : List (String × α)}
    (h : (l.map Prod.fst).Nodup) (k : String) :
    alistGet (alistRemove l k) k = none := by
  induction l with
  | nil => rfl
  | cons p t ih =>
    rw [List.map_cons, List.nodup_cons] at h
    by_cases he : p.1 = k
    · subst he
      simp [alistRemove]
      exact alistGet_eq_none_of_not_mem h.1
    · simp [alistRemove, he, alistGet, ih h.2]

/-- A printed JSON value is never the empty string. -/
theorem dumpsStr_not_empty (v : Json) : (dumpsStr v).isEmpty = false := by
  obtain ⟨c, t, hv, _, _⟩ := dumpV_head v
  rw [dumpsStr, hv]
  have h : ¬ String.mk (c :: t) = "" := by
    intro he
    have : (String.mk (c :: t)).data = ("" : String).data := by rw [he]
    simp [data_mk] at this
  cases hie : (String.mk (c :: t)).isEmpty
  · rfl
  · exact absurd ((String.isEmpty_iff _).mp hie) h

-- ===================================================================
-- session processor helper lemmas
-- ===================================================================

theorem aexit_sessions (st : ProcState) :
    (SessionProcessor.aexit st).sessions = st.sessions := by
  rw [SessionProcessor.aexit]
  split <;> rfl

theorem aexit_pagesCreated (st : ProcState) :
    (SessionProcessor.aexit st).pagesCreated = st.pagesCreated := by
  rw [SessionProcessor.aexit]
  split <;> rfl

theorem aenter_sessions (env : ProcEnv) (sid : String) (st : ProcState) :
    (SessionProcessor.aenter env sid st).2.sessions = alistRemove st.sessions sid := by
  rcases hg : alistGet st.sessions sid with _ | R
  · simp only [SessionProcessor.aenter, InMemorySessionManager.claim_session, alistPop, hg]
    simp [aexit_sessions]
  · simp only [SessionProcessor.aenter, InMemorySessionManager.claim_session, alistPop, hg]
    repeat' split
    all_goals simp [aexit_sessions]

theorem run_sessions (env : ProcEnv) (sid : String) (st : ProcState) :
    (SessionProcessor.run env sid st).2.sessions = alistRemove st.sessions sid := by
  have h := aenter_sessions env sid st
  rw [SessionProcessor.run]
  rcases haen : SessionProcessor.aenter env sid st with ⟨r, st1⟩
  rw [haen] at h
  cases r <;> simp [aexit_sessions] <;> exact h

theorem run_fst_of_absent (env : ProcEnv) (sid : String) (st : ProcState)
    (h : alistGet st.sessions sid = none) :
    (SessionProcessor.run env sid st).1 = .error .sessionNotFound := by
  rw [SessionProcessor.run]
  simp only [SessionProcessor.aenter, InMemorySessionManager.claim_session, alistPop, h]

-- ===================================================================
-- claim theorems
-- ===================================================================

/-- C1: the claim says an HTTP 4xx response is terminal — logged exactly
once with the sensitive field redacted and never retried, so a single-4xx
response sequence yields exactly 1 attempt and overall failure.  The code
disagrees: the tenacity decorator has no retry= predicate, so the
re-raised 4xx is retried; a constant-400 endpoint sees 3 attempts, the
sanitized client-error log is emitted 3 times, and the callback swallows
the final error so nothing is raised to the caller. -/
theorem send_single_4xx_retried_three_times :
    (send_to_bubble (fun _ => .status 400 "\x7b\"li_at\": \"secret\"\x7d")).attempts = 3
    ∧ (send_to_bubble (fun _ => .status 400 "\x7b\"li_at\": \"secret\"\x7d")).clientErrorLogs
        = ["\x7b\"li_at\": \"[REDACTED]\"\x7d", "\x7b\"li_at\": \"[REDACTED]\"\x7d",
           "\x7b\"li_at\": \"[REDACTED]\"\x7d"]
    ∧ (send_to_bubble (fun _ => .status 400 "\x7b\"li_at\": \"secret\"\x7d")).raised = none := by
  decide

/-- C5: at most 3 attempts and the single terminal log with attempt count
and last error hold, and three 5xx responses do exhaust the attempts; but
the failure never surfaces to the caller — retry_error_callback returns
None instead of raising — and (per C1) 4xx is retried as well. -/
theorem send_exhaustion_swallows_failure :
    (send_to_bubble (fun _ => .status 500 "err")).attempts = 3
    ∧ (send_to_bubble (fun _ => .status 500 "err")).terminalLog
        = some (3, .httpStatus 500 "err")
    ∧ (send_to_bubble (fun _ => .status 500 "err")).raised = none
    ∧ (send_to_bubble (fun n => if n ≤ 2 then .status 500 "err" else .ok)).attempts = 3
    ∧ (send_to_bubble (fun n => if n ≤ 2 then .status 500 "err" else .ok)).terminalLog = none := by
  decide

/-- C2: the claim says health returns the AND of the store probe and the
gateway probe with a per-dependency breakdown.  The code never awaits
check_browserbase_api, so the coroutine object is truthy and the endpoint
reports ok with browserbase marked healthy even when the probe itself
would return false. -/
theorem health_check_ignores_gateway :
    health_check_endpoint true false
      = { ok := true, redisReported := "healthy", browserbaseReported := "healthy" }
    ∧ check_browserbase_api false = false := by
  decide

/-- C3: the claim says both the browser connection handle and the
connection-library handle are released on every exit.  On a fully
successful finalize the playwright handle is released but the CDP browser
connection stays open: browser.close() is commented out in __aexit__. -/
theorem session_processor_leaks_browser_connection :
    (SessionProcessor.run procEnvHappy "sid-1" procStExample).1 = .ok 7
    ∧ (SessionProcessor.run procEnvHappy "sid-1" procStExample).2.browserConnOpen = true
    ∧ (SessionProcessor.run procEnvHappy "sid-1" procStExample).2.pwHandleOpen = false := by
  exact ⟨rfl, rfl, rfl⟩

/-- C4: the claim says store then get round-trips on either variant.  The
Redis variant does round-trip, but the in-memory get_session calls
dict.retrieve, which raises AttributeError. -/
theorem store_get_roundtrip_inmemory_raises :
    InMemorySessionManager.get_session
        (InMemorySessionManager.store_session [] "sid-1" recExample) "sid-1"
      = .error .attributeError
    ∧ RedisSessionManager.get_session
        (RedisSessionManager.store_session [] "sid-1" recExample) "sid-1"
      = .ok (some recExample) := by
  exact ⟨rfl, rfl⟩

/-- C6: claim is destructive and single-winner on both variants: with the
record present the first claim returns it and removes it, a second claim
returns not-found, and on the Redis variant a later get also returns
not-found. -/
theorem claim_session_single_winner (mem : PyDict) (rst : RedisState)
    (sid : String) (R : Json)
    (hmem : (mem.map Prod.fst).Nodup) (hget : alistGet mem sid = some R)
    (hrst : (rst.map Prod.fst).Nodup) :
    (InMemorySessionManager.claim_session mem sid).1 = some R
    ∧ (InMemorySessionManager.claim_session
        (InMemorySessionManager.claim_session mem sid).2 sid).1 = none
    ∧ (RedisSessionManager.claim_session
        (RedisSessionManager.store_session rst sid R) sid).1 = .ok (some R)
    ∧ (RedisSessionManager.claim_session
        (RedisSessionManager.claim_session
          (RedisSessionManager.store_session rst sid R) sid).2 sid).1 = .ok none
    ∧ RedisSessionManager.get_session
        (RedisSessionManager.claim_session
          (RedisSessionManager.store_session rst sid R) sid).2 sid = .ok none := by
  have hsg : alistGet (alistSet rst sid (dumpsStr R)) sid = some (dumpsStr R) :=
    alistGet_alistSet_self rst sid (dumpsStr R)
  have hclaim2 : (RedisSessionManager.claim_session
      (RedisSessionManager.store_session rst sid R) sid).2 = alistRemove rst sid := by
    simp only [RedisSessionManager.claim_session, RedisSessionManager.store_session, hsg]
    exact alistRemove_alistSet rst sid (dumpsStr R)
  have habsent : alistGet (alistRemove rst sid) sid = none :=
    alistGet_alistRemove_self hrst sid
  refine ⟨?_, ?_, ?_, ?_, ?_⟩
  · simp [InMemorySessionManager.claim_session, alistPop, hget]
  · simp [InMemorySessionManager.claim_session, alistPop,
      alistGet_alistRemove_self hmem sid]
  · simp only [RedisSessionManager.claim_session, RedisSessionManager.store_session, hsg]
    simp [dumpsStr_not_empty, parseJson_dumpsStr]
  · rw [hclaim2]
    simp [RedisSessionManager.claim_session, habsent]
  · rw [hclaim2]
    simp [RedisSessionManager.get_session, habsent]

/-- C6 witness: the single-winner behaviour at a concrete store holding
one record. -/
theorem claim_session_single_winner_witness :
    (InMemorySessionManager.claim_session [("s", recExample)] "s").1 = some recExample
    ∧ (InMemorySessionManager.claim_session
        (InMemorySessionManager.claim_session [("s", recExample)] "s").2 "s").1 = none
    ∧ (RedisSessionManager.claim_session
        (RedisSessionManager.store_session [] "s" recExample) "s").1 = .ok (some recExample)
    ∧ (RedisSessionManager.claim_session
        (RedisSessionManager.claim_session
          (RedisSessionManager.store_session [] "s" recExample) "s").2 "s").1 = .ok none
    ∧ RedisSessionManager.get_session
        (RedisSessionManager.claim_session
          (RedisSessionManager.store_session [] "s" recExample) "s").2 "s" = .ok none :=
  claim_session_single_winner [("s", recExample)] [] "s" recExample
    (by decide) (by decide) (by decide)

/-- C7 counterexample: with a default context that has no page, the claim
says entry succeeds by creating a page; the code instead fails entry with
an IndexError and never creates a page. -/
theorem aenter_no_pages_counterexample :
    (SessionProcessor.aenter procEnvNoPages "sid-1" procStExample).1
      = .error .indexError
    ∧ (SessionProcessor.aenter procEnvNoPages "sid-1" procStExample).2.pagesCreated = 0 := by
  exact ⟨rfl, rfl⟩

/-- C7 amended: on successful entry the processor yields the first page
already present in the connection's first context; when no context or no
page exists, entry fails with IndexError after teardown, and no page is
ever created. -/
theorem aenter_yields_existing_page_only (env : ProcEnv) (sid : String)
    (st : ProcState) (R : Json)
    (hget : alistGet st.sessions sid = some R) (htr : jsonTruthy R = true)
    (hurl : env.connectUrlOk = true) (hcdp : env.cdpConnectOk = true) :
    (SessionProcessor.aenter env sid st).1
      = (match env.contexts with
         | (p :: _) :: _ => Except.ok p
         | _ => Except.error ProcError.indexError)
    ∧ (SessionProcessor.aenter env sid st).2.pagesCreated = st.pagesCreated := by
  simp only [SessionProcessor.aenter, InMemorySessionManager.claim_session, alistPop,
    hget, htr, hurl, hcdp]
  rcases env.contexts with _ | ⟨ctx0, ctxs⟩
  · simp [aexit_pagesCreated]
  · rcases ctx0 with _ | ⟨p0, ps⟩
    · simp [aexit_pagesCreated]
    · simp [aexit_pagesCreated]

/-- C7 amended witness: a context with one page yields that page and
creates none. -/
theorem aenter_yields_existing_page_only_witness :
    (SessionProcessor.aenter procEnvHappy "sid-1" procStExample).1 = Except.ok 7
    ∧ (SessionProcessor.aenter procEnvHappy "sid-1" procStExample).2.pagesCreated
        = procStExample.pagesCreated :=
  aenter_yields_existing_page_only procEnvHappy "sid-1" procStExample recExample
    rfl rfl rfl rfl

/-- C8: a full pass of the processor leaves the store exactly with the
claimed id removed — no TTL extension, no re-insertion — and a second
finalize on the same id fails with SessionNotFound. -/
theorem finalize_consumes_record (env env2 : ProcEnv) (sid : String)
    (st : ProcState) (hnd : (st.sessions.map Prod.fst).Nodup) :
    (SessionProcessor.run env sid st).2.sessions = alistRemove st.sessions sid
    ∧ (SessionProcessor.run env2 sid (SessionProcessor.run env sid st).2).1
        = .error .sessionNotFound := by
  refine ⟨run_sessions env sid st, ?_⟩
  apply run_fst_of_absent
  rw [run_sessions env sid st]
  exact alistGet_alistRemove_self hnd sid

/-- C8 witness: the concrete happy-path store is consumed and the second
finalize misses. -/
theorem finalize_consumes_record_witness :
    (SessionProcessor.run procEnvHappy "sid-1" procStExample).2.sessions
      = alistRemove procStExample.sessions "sid-1"
    ∧ (SessionProcessor.run procEnvHappy "sid-1"
        (SessionProcessor.run procEnvHappy "sid-1" procStExample).2).1
      = .error .sessionNotFound :=
  finalize_consumes_record procEnvHappy procEnvHappy "sid-1" procStExample (by decide)

/-- C9: the redaction function is total (a Lean function on all strings
by construction), idempotent, and the identity on inputs that do not
parse as JSON. -/
theorem sanitize_idempotent_total (s : String) :
    sanitizeErrorResponse (sanitizeErrorResponse s) = sanitizeErrorResponse s
    ∧ (parseJson s = none → sanitizeErrorResponse s = s) := by
  constructor
  · rcases h : parseJson s with _ | d
    · have h1 : sanitizeErrorResponse s = s := by
        rw [sanitizeErrorResponse, h]
      rw [h1]
      exact h1
    · have h1 : sanitizeErrorResponse s = dumpsStr (redact d) := by
        rw [sanitizeErrorResponse, h]
      rw [h1, sanitizeErrorResponse, parseJson_dumpsStr (redact d)]
      show dumpsStr (redact (redact d)) = dumpsStr (redact d)
      rw [redact_idem]
  · intro h
    rw [sanitizeErrorResponse, h]

/-- C9 witness: idempotence and the non-JSON identity at a concrete
non-JSON input. -/
theorem sanitize_idempotent_total_witness :
    sanitizeErrorResponse (sanitizeErrorResponse "plain text error") =
      sanitizeErrorResponse "plain text error"
    ∧ sanitizeErrorResponse "plain text error" = "plain text error" :=
  ⟨(sanitize_idempotent_total "plain text error").1,
   (sanitize_idempotent_total "plain text error").2 (by decide)⟩

/-- C10: once the start endpoint has created the remote session and stored
the record, it answers success with the internal id and debugger URL, and
the store holds exactly the new record — whatever happens in the inner
open-login-page block, whose failure is swallowed. -/
theorem start_session_success_despite_inner_failure (env : StartEnv)
    (sessions : PyDict) (hc : env.createOk = true) :
    start_session_endpoint env sessions
      = (.ok env.newUuid env.debuggerUrl,
         InMemorySessionManager.store_session sessions env.newUuid (sessionDetailsOf env)) := by
  simp [start_session_endpoint, hc]

/-- C10 witness: a start call whose inner page-opening block fails still
returns success and stores the record. -/
theorem start_session_success_despite_inner_failure_witness :
    start_session_endpoint
        { createOk := true, providerSessionId := "bb-123",
          debuggerUrl := "https://debug.example", newUuid := "uuid-1", innerOk := false } []
      = (.ok "uuid-1" "https://debug.example",
         InMemorySessionManager.store_session [] "uuid-1"
           (sessionDetailsOf
             { createOk := true, providerSessionId := "bb-123",
               debuggerUrl := "https://debug.example", newUuid := "uuid-1", innerOk := false })) :=
  start_session_success_despite_inner_failure
    { createOk := true, providerSessionId := "bb-123",
      debuggerUrl := "https://debug.example", newUuid := "uuid-1", innerOk := false } [] rfl
